import Mathlib

/-!
Verification of the h3go hierarchical discrete global grid library against its
specification.  The Go source is shallowly embedded: machine integers (`int`,
`uint64`) become `Int`/`Nat` with the masking the source performs, in-place
coordinate mutation becomes explicit state passing, and slices become lists.
Functions of the repository that are only declared here (the base-cell pentagon
table, `h3NeighborRotations`) are taken as parameters, so every theorem about a
caller holds for any instantiation of them.  Floating-point geometry is kept
abstract where a claim's guard precedes it, and idealized as real arithmetic
where a claim is about trigonometric constants.
-/

/- ======================== IJK coordinate arithmetic ======================== -/

/-- CoordIJK is the source's `CoordIJK`: hexagon coordinates on three axes spaced
120 degrees apart.  Go `int` components are modelled as `Int`. -/
structure CoordIJK where
  i : Int
  j : Int
  k : Int
deriving DecidableEq, Repr

/-- ijkNormalize is `(*CoordIJK).Normalize`: remove negative components by adding
their absolute value to the other two, then subtract the minimum.  The Go code
mutates in place; each `let` rebinds the record as the corresponding block does. -/
def ijkNormalize (c : CoordIJK) : CoordIJK :=
  let c := if c.i < 0 then { i := 0, j := c.j - c.i, k := c.k - c.i } else c
  let c := if c.j < 0 then { i := c.i - c.j, j := 0, k := c.k - c.j } else c
  let c := if c.k < 0 then { i := c.i - c.k, j := c.j - c.k, k := 0 } else c
  let m := min (min c.i c.j) c.k
  if m > 0 then { i := c.i - m, j := c.j - m, k := c.k - m } else c

/-- ijkAdd is `_ijkAdd`, component-wise addition. -/
def ijkAdd (a b : CoordIJK) : CoordIJK := ⟨a.i + b.i, a.j + b.j, a.k + b.k⟩

/-- ijkSub is `_ijkSub`, component-wise subtraction. -/
def ijkSub (a b : CoordIJK) : CoordIJK := ⟨a.i - b.i, a.j - b.j, a.k - b.k⟩

/-- ijkScale is `(*CoordIJK).Scale`, uniform scaling. -/
def ijkScale (c : CoordIJK) (factor : Int) : CoordIJK :=
  ⟨c.i * factor, c.j * factor, c.k * factor⟩

/-- upAp7 is `(*CoordIJK).upAp7`.  In the Go source the bodies read
`int(math.Round(float64((3*i - j) / 7.0)))`: the dividend `3*i - j` has type
`int`, so Go converts the untyped constant `7.0` to the `int` `7` and the
division is Go integer division, truncation toward zero (`Int.tdiv`).  The
subsequent `float64` conversion and `math.Round` are then the identity (exactly
so for the magnitudes below 2^53 that `int` hex coordinates reach in practice;
the model uses the exact integer). -/
def CoordIJK.upAp7 (c : CoordIJK) : CoordIJK :=
  let i := c.i - c.k
  let j := c.j - c.k
  ijkNormalize ⟨Int.tdiv (3 * i - j) 7, Int.tdiv (i + 2 * j) 7, 0⟩

/-- upAp7r is `(*CoordIJK).upAp7r`; the same Go typing makes the divisions
truncate toward zero. -/
def CoordIJK.upAp7r (c : CoordIJK) : CoordIJK :=
  let i := c.i - c.k
  let j := c.j - c.k
  ijkNormalize ⟨Int.tdiv (2 * i + j) 7, Int.tdiv (3 * j - i) 7, 0⟩

/-- roundDiv is nearest-integer division with halves away from zero, the
behaviour of C `lround(a / 7.0)` and of Go `math.Round` applied to a real
quotient.  Used only by the spec-side model below. -/
def roundDiv (a b : Int) : Int :=
  if 0 ≤ a then (2 * a + b) / (2 * b) else -((2 * (-a) + b) / (2 * b))

/-- upAp7Round is modelled from the spec: `upAp7` as section 4.2 describes it,
the linear map [[3,-1],[1,2]]/7 applied to (i-k, j-k) with rounding to the
nearest integer, k set to 0, then normalization. -/
def upAp7Round (c : CoordIJK) : CoordIJK :=
  let i := c.i - c.k
  let j := c.j - c.k
  ijkNormalize ⟨roundDiv (3 * i - j) 7, roundDiv (i + 2 * j) 7, 0⟩

/-- upAp7rRound is modelled from the spec: `upAp7r` as section 4.2 describes it,
the linear map [[2,1],[-1,3]]/7 with nearest rounding. -/
def upAp7rRound (c : CoordIJK) : CoordIJK :=
  let i := c.i - c.k
  let j := c.j - c.k
  ijkNormalize ⟨roundDiv (2 * i + j) 7, roundDiv (3 * j - i) 7, 0⟩

/-- ToCube is `(*CoordIJK).ToCube`.  The Go code updates the record in place, so
the assignment to `k` reads the already-updated `i` and `j`. -/
def CoordIJK.ToCube (c : CoordIJK) : CoordIJK :=
  let i := -c.i + c.k
  let j := c.j - c.k
  let k := -i - j
  ⟨i, j, k⟩

/-- cubeToIjk is the source's `cubeToIjk`: negate i, zero k, normalize. -/
def cubeToIjk (c : CoordIJK) : CoordIJK :=
  ijkNormalize ⟨-c.i, c.j, 0⟩

/-- Rotate60ccw is `(*CoordIJK).Rotate60ccw`: the source scales the unit-vector
images iVec=(1,1,0), jVec=(0,1,1), kVec=(1,0,1) by i, j, k, sums them and
normalizes; the sum is (i+k, i+j, j+k). -/
def CoordIJK.Rotate60ccw (c : CoordIJK) : CoordIJK :=
  ijkNormalize ⟨c.i + c.k, c.i + c.j, c.j + c.k⟩

/-- Rotate60cw is `(*CoordIJK).Rotate60cw`: unit-vector images iVec=(1,0,1),
jVec=(1,1,0), kVec=(0,1,1); the scaled sum is (i+j, j+k, i+k), normalized. -/
def CoordIJK.Rotate60cw (c : CoordIJK) : CoordIJK :=
  ijkNormalize ⟨c.i + c.j, c.j + c.k, c.i + c.k⟩

/-- rotate60ccwN applies `Rotate60ccw` n times, the source's
`for i := 0; i < ccwRot60; i++` loop. -/
def rotate60ccwN (c : CoordIJK) : Nat → CoordIJK
  | 0 => c
  | n + 1 => rotate60ccwN c.Rotate60ccw n

/- ======================== Bit codec for H3 indexes ======================== -/

/-- MAX_H3_RES is the finest H3 resolution, 15. -/
def MAX_H3_RES : Nat := 15

/-- NUM_BASE_CELLS is the number of resolution-0 base cells, 122. -/
def NUM_BASE_CELLS : Nat := 122

/-- H3_HEXAGON_MODE is index mode 1, a hexagon or pentagon cell. -/
def H3_HEXAGON_MODE : Nat := 1

/-- H3_UNIEDGE_MODE is index mode 2, a uni-directional edge. -/
def H3_UNIEDGE_MODE : Nat := 2

/-- UINT64_MAX is the all-ones 64-bit word; Go's `^x` on a `uint64` is
`UINT64_MAX ^^^ x`. -/
def UINT64_MAX : Nat := 2 ^ 64 - 1

/-- H3_MAX_OFFSET is the bit offset of the high bit, 63. -/
def H3_MAX_OFFSET : Nat := 63

/-- H3_MODE_OFFSET is the bit offset of the mode field, 59. -/
def H3_MODE_OFFSET : Nat := 59

/-- H3_BC_OFFSET is the bit offset of the base-cell field, 45. -/
def H3_BC_OFFSET : Nat := 45

/-- H3_RES_OFFSET is the bit offset of the resolution field, 52. -/
def H3_RES_OFFSET : Nat := 52

/-- H3_RESERVED_OFFSET is the bit offset of the reserved bits, 56. -/
def H3_RESERVED_OFFSET : Nat := 56

/-- H3_PER_DIGIT_OFFSET is the width of one path digit, 3 bits. -/
def H3_PER_DIGIT_OFFSET : Nat := 3

/-- H3_HIGH_BIT_MASK has a 1 in the highest bit. -/
def H3_HIGH_BIT_MASK : Nat := 1 <<< H3_MAX_OFFSET

/-- H3_MODE_MASK has 1's in the four mode bits. -/
def H3_MODE_MASK : Nat := 15 <<< H3_MODE_OFFSET

/-- H3_MODE_MASK_NEGATIVE is the 64-bit complement of the mode mask. -/
def H3_MODE_MASK_NEGATIVE : Nat := UINT64_MAX ^^^ H3_MODE_MASK

/-- H3_BC_MASK has 1's in the seven base-cell bits. -/
def H3_BC_MASK : Nat := 127 <<< H3_BC_OFFSET

/-- H3_RES_MASK has 1's in the four resolution bits. -/
def H3_RES_MASK : Nat := 15 <<< H3_RES_OFFSET

/-- H3_RES_MASK_NEGATIVE is the 64-bit complement of the resolution mask. -/
def H3_RES_MASK_NEGATIVE : Nat := UINT64_MAX ^^^ H3_RES_MASK

/-- H3_RESERVED_MASK has 1's in the three reserved bits. -/
def H3_RESERVED_MASK : Nat := 7 <<< H3_RESERVED_OFFSET

/-- H3_RESERVED_MASK_NEGATIVE is the 64-bit complement of the reserved mask. -/
def H3_RESERVED_MASK_NEGATIVE : Nat := UINT64_MAX ^^^ H3_RESERVED_MASK

/-- H3_DIGIT_MASK has 1's in the three lowest bits. -/
def H3_DIGIT_MASK : Nat := 7

/-- H3_INIT is the index with mode 0, res 0, base cell 0 and every digit 7. -/
def H3_INIT : Nat := 35184372088831

/-- H3_NULL is the null / error sentinel index. -/
def H3_NULL : Nat := 0

/-- H3_GET_HIGH_BIT is the source's `H3_GET_HIGH_BIT`. -/
def H3_GET_HIGH_BIT (h : Nat) : Nat := (h &&& H3_HIGH_BIT_MASK) >>> H3_MAX_OFFSET

/-- H3_GET_MODE is the source's `H3_GET_MODE`. -/
def H3_GET_MODE (h : Nat) : Nat := (h &&& H3_MODE_MASK) >>> H3_MODE_OFFSET

/-- H3_SET_MODE is the source's `H3_SET_MODE`. -/
def H3_SET_MODE (h v : Nat) : Nat := (h &&& H3_MODE_MASK_NEGATIVE) ||| (v <<< H3_MODE_OFFSET)

/-- H3_GET_BASE_CELL is the source's `H3_GET_BASE_CELL`. -/
def H3_GET_BASE_CELL (h : Nat) : Nat := (h &&& H3_BC_MASK) >>> H3_BC_OFFSET

/-- H3_GET_RESOLUTION is the source's `H3_GET_RESOLUTION`. -/
def H3_GET_RESOLUTION (h : Nat) : Nat := (h &&& H3_RES_MASK) >>> H3_RES_OFFSET

/-- H3_SET_RESOLUTION is the source's `H3_SET_RESOLUTION`; callers pass `res` in
0..15 (the Go `uint64(res)` conversion of a negative `int` never happens on the
paths modelled here, which guard `res` first). -/
def H3_SET_RESOLUTION (h res : Nat) : Nat :=
  (h &&& H3_RES_MASK_NEGATIVE) ||| (res <<< H3_RES_OFFSET)

/-- H3_GET_RESERVED_BITS is the source's `H3_GET_RESERVED_BITS`. -/
def H3_GET_RESERVED_BITS (h : Nat) : Nat :=
  (h &&& H3_RESERVED_MASK) >>> H3_RESERVED_OFFSET

/-- H3_SET_RESERVED_BITS is the source's `H3_SET_RESERVED_BITS`. -/
def H3_SET_RESERVED_BITS (h v : Nat) : Nat :=
  (h &&& H3_RESERVED_MASK_NEGATIVE) ||| (v <<< H3_RESERVED_OFFSET)

/-- H3_GET_INDEX_DIGIT is the source's `H3_GET_INDEX_DIGIT`; `r` is 1..15 on
every path used (Go would shift by a negative count and panic outside that). -/
def H3_GET_INDEX_DIGIT (h : Nat) (r : Nat) : Nat :=
  (h >>> ((MAX_H3_RES - r) * H3_PER_DIGIT_OFFSET)) &&& H3_DIGIT_MASK

/-- H3_SET_INDEX_DIGIT is the source's `H3_SET_INDEX_DIGIT`. -/
def H3_SET_INDEX_DIGIT (h : Nat) (r : Nat) (digit : Nat) : Nat :=
  (h &&& (UINT64_MAX ^^^ (H3_DIGIT_MASK <<< ((MAX_H3_RES - r) * H3_PER_DIGIT_OFFSET)))) |||
    (digit <<< ((MAX_H3_RES - r) * H3_PER_DIGIT_OFFSET))

/- ======================== Validity and hierarchy ======================== -/

/-- isValidDigits is the digit loop of `(H3Index).IsValid` over the listed
resolutions, threading the `foundFirstNonZeroDigit` flag.  The loop body first
handles the first non-zero digit (failing for K=1 under a pentagon base cell),
then rejects any digit outside 0..6; `digit < CENTER_DIGIT` in the source is
vacuous for the unsigned digit and is dropped.  The base-cell pentagon table is
not part of the staged sources, so the predicate `isPent` is a parameter. -/
def isValidDigits (isPent : Nat → Bool) (h : Nat) (baseCell : Nat) :
    List Nat → Bool → Bool
  | [], _ => true
  | r :: rest, found =>
    let digit := H3_GET_INDEX_DIGIT h r
    if ¬found ∧ digit ≠ 0 then
      if isPent baseCell ∧ digit = 1 then false
      else if 7 ≤ digit then false
      else isValidDigits isPent h baseCell rest true
    else if 7 ≤ digit then false
    else isValidDigits isPent h baseCell rest found

/-- H3IsValid is `(H3Index).IsValid`.  The base-cell and resolution lower-bound
checks of the source (`baseCell < 0`, `res < 0`) are vacuous for the unsigned
model and drop out; the digit loops run over r = 1..res and r = res+1..15. -/
def H3IsValid (isPent : Nat → Bool) (h : Nat) : Bool :=
  if H3_GET_HIGH_BIT h ≠ 0 then false
  else if H3_GET_MODE h ≠ H3_HEXAGON_MODE then false
  else if H3_GET_RESERVED_BITS h ≠ 0 then false
  else if NUM_BASE_CELLS ≤ H3_GET_BASE_CELL h then false
  else if MAX_H3_RES < H3_GET_RESOLUTION h then false
  else if ¬isValidDigits isPent h (H3_GET_BASE_CELL h)
      (List.range' 1 (H3_GET_RESOLUTION h)) false then false
  else (List.range' (H3_GET_RESOLUTION h + 1) (MAX_H3_RES - H3_GET_RESOLUTION h)).all
      fun r => H3_GET_INDEX_DIGIT h r == 7

/-- leadingNonZeroAux is the loop of `_h3LeadingNonZeroDigit`: the source tests
`H3_GET_INDEX_DIGIT(h, r) > 1` (not `> 0`), so digits equal to 1 are skipped. -/
def leadingNonZeroAux (h : Nat) : List Nat → Nat
  | [] => 0
  | r :: rest =>
    if 1 < H3_GET_INDEX_DIGIT h r then H3_GET_INDEX_DIGIT h r
    else leadingNonZeroAux h rest

/-- h3LeadingNonZeroDigit is `_h3LeadingNonZeroDigit`, returning 0 when the loop
finds nothing. -/
def h3LeadingNonZeroDigit (h : Nat) : Nat :=
  leadingNonZeroAux h (List.range' 1 (H3_GET_RESOLUTION h))

/-- H3IsPentagon is `(H3Index).IsPentagon`: a pentagon base cell with leading
digit 0 (as `_h3LeadingNonZeroDigit` computes it). -/
def H3IsPentagon (isPent : Nat → Bool) (h : Nat) : Bool :=
  isPent (H3_GET_BASE_CELL h) && (h3LeadingNonZeroDigit h == 0)

/-- H3ToParent is the source's `H3ToParent`: guard the requested resolution,
set the resolution field, and write the sentinel digit 7 at every resolution
from parentRes+1 to childRes.  `parentRes` is a Go `int`, modelled as `Int`;
after the guards it lies in 0..childRes-1, so `Int.toNat` is exact. -/
def H3ToParent (h : Nat) (parentRes : Int) : Nat :=
  let childRes : Int := H3_GET_RESOLUTION h
  if parentRes > childRes then H3_NULL
  else if parentRes = childRes then h
  else if parentRes < 0 ∨ 15 < parentRes then H3_NULL
  else
    (List.range' (parentRes.toNat + 1) (childRes - parentRes).toNat).foldl
      (fun acc i => H3_SET_INDEX_DIGIT acc i 7)
      (H3_SET_RESOLUTION h parentRes.toNat)

/-- isValidChildRes is `_isValidChildRes`. -/
def isValidChildRes (parentRes childRes : Int) : Bool :=
  if childRes < parentRes ∨ 15 < childRes then false else true

/-- ipow is `_ipow`, integer exponentiation by squaring. -/
def ipow (base : Int) (exp : Nat) : Int :=
  if exp = 0 then 1
  else
    let r := if exp &&& 1 ≠ 0 then base else 1
    r * ipow (base * base) (exp >>> 1)
decreasing_by
  simp only [Nat.shiftRight_succ, Nat.shiftRight_zero]
  omega

/-- MaxH3ToChildrenSize is the source's `MaxH3ToChildrenSize`. -/
def MaxH3ToChildrenSize (h : Nat) (childRes : Int) : Int :=
  let parentRes : Int := H3_GET_RESOLUTION h
  if ¬isValidChildRes parentRes childRes then 0
  else ipow 7 (childRes - parentRes).toNat

/-- makeDirectChild is the source's `makeDirectChild`: bump the resolution field
and write the child digit at the new resolution. -/
def makeDirectChild (h : Nat) (cellNumber : Nat) : Nat :=
  let childRes := H3_GET_RESOLUTION h + 1
  H3_SET_INDEX_DIGIT (H3_SET_RESOLUTION h childRes) childRes cellNumber

set_option maxHeartbeats 2000000 in
/-- H3ToChildren is the source's recursive `H3ToChildren`, with the output slice
threaded as an accumulator.  The Go `for i := 0; i < 7; i++` loop is unrolled:
each iteration recurses on `makeDirectChild h i`, and a pentagon skips i = 1
(the K axis).  Termination: inside the else branch the child resolution strictly
approaches `childRes`, which the guard bounds by 15. -/
def H3ToChildren (isPent : Nat → Bool) (h : Nat) (childRes : Int)
    (children : List Nat) : List Nat :=
  let parentRes : Int := H3_GET_RESOLUTION h
  if ¬isValidChildRes parentRes childRes then children
  else if parentRes = childRes then children ++ [h]
  else
    let isAPentagon := H3IsPentagon isPent h
    let c0 := H3ToChildren isPent (makeDirectChild h 0) childRes children
    let c1 := if isAPentagon then c0
      else H3ToChildren isPent (makeDirectChild h 1) childRes c0
    let c2 := H3ToChildren isPent (makeDirectChild h 2) childRes c1
    let c3 := H3ToChildren isPent (makeDirectChild h 3) childRes c2
    let c4 := H3ToChildren isPent (makeDirectChild h 4) childRes c3
    let c5 := H3ToChildren isPent (makeDirectChild h 5) childRes c4
    H3ToChildren isPent (makeDirectChild h 6) childRes c5
termination_by (childRes + 1 - H3_GET_RESOLUTION h).toNat
decreasing_by
  all_goals
  · rename_i hval heq
    have hsmall : ∀ (a m c : Nat), a < 2 ^ c → c ≤ m → a.testBit m = false := by
      intro a m c ha hcm
      apply Nat.testBit_lt_two_pow
      exact lt_of_lt_of_le ha (Nat.pow_le_pow_right (by norm_num) hcm)
    have hkey : ∀ (x v d r : Nat), v < 16 → d < 8 → 1 ≤ r → r ≤ 15 →
        H3_GET_RESOLUTION (H3_SET_INDEX_DIGIT (H3_SET_RESOLUTION x v) r d) = v := by
      intro x v d r hv hd hr1 hr15
      apply Nat.eq_of_testBit_eq
      intro t
      have hs3 : (MAX_H3_RES - r) * H3_PER_DIGIT_OFFSET ≤ 42 := by
        simp only [MAX_H3_RES, H3_PER_DIGIT_OFFSET]; omega
      simp only [H3_GET_RESOLUTION, H3_SET_INDEX_DIGIT, H3_SET_RESOLUTION, H3_RES_MASK,
        H3_RES_MASK_NEGATIVE, H3_RES_OFFSET, H3_DIGIT_MASK, UINT64_MAX,
        Nat.testBit_shiftRight, Nat.testBit_land, Nat.testBit_lor, Nat.testBit_xor,
        Nat.testBit_shiftLeft]
      by_cases ht : t < 4
      · have e1 : Nat.testBit 15 (52 + t - 52) = true := by
          interval_cases t <;> decide
        have e2 : Nat.testBit d (52 + t - (MAX_H3_RES - r) * H3_PER_DIGIT_OFFSET) = false :=
          hsmall d _ 3 hd (by omega)
        have e3 : Nat.testBit 7 (52 + t - (MAX_H3_RES - r) * H3_PER_DIGIT_OFFSET) = false :=
          hsmall 7 _ 3 (by norm_num) (by omega)
        have e4 : Nat.testBit (2 ^ 64 - 1) (52 + t) = true := by
          rw [Nat.testBit_two_pow_sub_one]; simp; omega
        have e5 : decide (52 ≤ 52 + t) = true := by simp
        have e6 : decide ((MAX_H3_RES - r) * H3_PER_DIGIT_OFFSET ≤ 52 + t) = true := by
          simp; omega
        rw [e1, e2, e3, e4, e5, e6]
        simp
      · have e1 : Nat.testBit 15 (52 + t - 52) = false := by
          have h52 : 52 + t - 52 = t := by omega
          rw [h52]; exact hsmall 15 t 4 (by norm_num) (by omega)
        rw [e1]
        have e2 : Nat.testBit v t = false := hsmall v t 4 hv (by omega)
        rw [e2]
        simp
    have hp : parentRes = (H3_GET_RESOLUTION h : Int) := rfl
    rw [not_not] at hval
    simp only [isValidChildRes, hp] at hval heq
    have hcb : (H3_GET_RESOLUTION h : Int) ≤ childRes ∧ childRes ≤ 15 := by
      by_cases hle : childRes < (H3_GET_RESOLUTION h : Int) ∨ (15 : Int) < childRes
      · simp [hle] at hval
      · push_neg at hle
        exact ⟨hle.1, hle.2⟩
    have hb : H3_GET_RESOLUTION h ≤ 14 := by omega
    have hres : ∀ d, d < 8 →
        H3_GET_RESOLUTION (makeDirectChild h d) = H3_GET_RESOLUTION h + 1 := by
      intro d hd
      apply hkey <;> omega
    have g0 := hres 0 (by norm_num)
    have g1 := hres 1 (by norm_num)
    have g2 := hres 2 (by norm_num)
    have g3 := hres 3 (by norm_num)
    have g4 := hres 4 (by norm_num)
    have g5 := hres 5 (by norm_num)
    have g6 := hres 6 (by norm_num)
    omega

/- ======================== Compact ======================== -/

/-- CompactError models the error values of the Go port: `ErrCompactDuplicate`
("compact duplicated") and `ErrCompactLoopExceeded` (declared but never
returned by `Compact`).  No resolution-mismatch error exists in the source. -/
inductive CompactError where
  | duplicate
  | loopExceeded
deriving DecidableEq, Repr

/-- mapGet models a Go map read with its ok flag: the value stored at `k`. -/
def mapGet (m : List (Nat × Nat)) (k : Nat) : Option Nat :=
  match m.find? (fun kv => kv.1 == k) with
  | some kv => some kv.2
  | none => none

/-- mapSet models a Go map write: replace the entry at `k`, appending a new one
when the key is absent (insertion order stands in for Go's unspecified map
order). -/
def mapSet (m : List (Nat × Nat)) (k : Nat) (v : Nat) : List (Nat × Nat) :=
  match m with
  | [] => [(k, v)]
  | kv :: rest => if kv.1 == k then (k, v) :: rest else kv :: mapSet rest k v

/-- sumCounts sums a count map's values; used for the loop variant of
`compactLoop`. -/
def sumCounts (m : List (Nat × Nat)) : Nat := (m.map Prod.snd).sum

/-- countParents is the "count parent cells" loop of `Compact`: each cell bumps
its parent's count, a pentagon parent starts at 2, and a count exceeding 7
reports `ErrCompactDuplicate`. -/
def countParents (isPent : Nat → Bool) (parentRes : Int) :
    List Nat → List (Nat × Nat) → Except CompactError (List (Nat × Nat))
  | [], m => .ok m
  | cell :: rest, m =>
    let parent := H3ToParent cell parentRes
    let isPentagon := H3IsPentagon isPent parent
    match mapGet m parent with
    | some c =>
      if 7 < c + 1 then .error .duplicate
      else countParents isPent parentRes rest (mapSet m parent (c + 1))
    | none =>
      if isPentagon then countParents isPent parentRes rest (mapSet m parent 2)
      else countParents isPent parentRes rest (mapSet m parent 1)

/-- compactLoop is the `for len(remaining) > 0` loop of `Compact`, with `result`
accumulated: fewer than 6 remaining cells are flushed to the result; otherwise
parents are counted, cells whose parent's count is below 7 move to the result,
and the parents with count 7 become the new remaining set.  Termination: a
count of 7 needs at least 5 bumps beyond its initial 1 or 2, so at most 2n/7 of
n counted cells can promote a parent. -/
def compactLoop (isPent : Nat → Bool) : List Nat → List Nat →
    Except CompactError (List Nat)
  | [], result => .ok result
  | first :: rest, result =>
    let remaining := first :: rest
    if remaining.length < 6 then .ok (result ++ remaining)
    else
      let res := H3_GET_RESOLUTION first
      let parentRes : Int := (res : Int) - 1
      match hcount : countParents isPent parentRes remaining [] with
      | .error e => .error e
      | .ok compactable =>
        let uncompactable := remaining.filter fun cell =>
          (mapGet compactable (H3ToParent cell parentRes)).getD 0 < 7
        let promoted := (compactable.filter fun kv => kv.2 == 7).map Prod.fst
        compactLoop isPent promoted (result ++ uncompactable)
termination_by remaining _ => remaining.length
decreasing_by
  rename_i hlen
  have hsetS : ∀ (m : List (Nat × Nat)) (k v : Nat),
      sumCounts (mapSet m k v) ≤ sumCounts m + v := by
    intro m k v
    induction m with
    | nil => simp [mapSet, sumCounts]
    | cons kv rest ih =>
      by_cases hk : kv.1 == k
      · simp [mapSet, hk, sumCounts]
        omega
      · simp only [mapSet, hk, if_false, Bool.false_eq_true, sumCounts, List.map_cons,
          List.sum_cons] at *
        omega
  have hsetU : ∀ (m : List (Nat × Nat)) (k c : Nat), mapGet m k = some c →
      sumCounts (mapSet m k (c + 1)) = sumCounts m + 1 := by
    intro m k c
    induction m with
    | nil => intro hg; simp [mapGet] at hg
    | cons kv rest ih =>
      intro hg
      by_cases hk : kv.1 == k
      · simp only [mapGet, List.find?, hk] at hg
        have hc : c = kv.2 := by
          simpa using hg.symm
        simp [mapSet, hk, sumCounts, hc]
        omega
      · simp only [mapGet, List.find?, hk] at hg
        have := ih (by simpa [mapGet] using hg)
        simp only [mapSet, hk, if_false, Bool.false_eq_true, sumCounts, List.map_cons,
          List.sum_cons] at *
        omega
  have hcp : ∀ (cells : List Nat) (m m' : List (Nat × Nat)),
      countParents isPent parentRes cells m = .ok m' →
      sumCounts m' ≤ sumCounts m + 2 * cells.length := by
    intro cells
    induction cells with
    | nil =>
      intro m m' hok
      simp only [countParents] at hok
      cases hok
      simp
    | cons cell rest ih =>
      intro m m' hok
      simp only [countParents] at hok
      split at hok
      · rename_i c hget
        split at hok
        · cases hok
        · have h1 := ih _ _ hok
          have h2 := hsetU m (H3ToParent cell parentRes) c hget
          simp only [List.length_cons]
          omega
      · rename_i hget
        split at hok
        · have h1 := ih _ _ hok
          have h2 := hsetS m (H3ToParent cell parentRes) 2
          simp only [List.length_cons]
          omega
        · have h1 := ih _ _ hok
          have h2 := hsetS m (H3ToParent cell parentRes) 1
          simp only [List.length_cons]
          omega
  have hfil : ∀ (m : List (Nat × Nat)),
      7 * (m.filter fun kv => kv.2 == 7).length ≤ sumCounts m := by
    intro m
    induction m with
    | nil => simp [sumCounts]
    | cons kv rest ih =>
      by_cases h7 : kv.2 == 7
      · have h7' : kv.2 = 7 := by simpa using h7
        simp [h7, sumCounts, h7'] at *
        omega
      · simp only [List.filter_cons, h7, if_false, Bool.false_eq_true, sumCounts,
          List.map_cons, List.sum_cons] at *
        omega
  have hsum := hcp (first :: rest) [] compactable hcount
  have hfc := hfil compactable
  simp only [sumCounts, List.map_nil, List.sum_nil, List.length_cons] at hsum hfc
  simp only [List.length_map, List.length_cons]
  simp only [List.length_cons, not_lt] at hlen
  omega

/-- Compact is the source's `Compact`: empty input yields an empty result, a
resolution-0 first cell returns the input unchanged, and otherwise the
compaction loop runs with an empty result accumulator. -/
def Compact (isPent : Nat → Bool) (h3Set : List Nat) :
    Except CompactError (List Nat) :=
  match h3Set with
  | [] => .ok []
  | first :: _ =>
    if H3_GET_RESOLUTION first = 0 then .ok h3Set
    else compactLoop isPent h3Set []

/- ======================== Geographic guard and encoding ======================== -/

/-- FloatVal classifies an IEEE-754 float64 as far as the encoding guard
inspects it: finite values carry their exact real value as a rational, the two
infinities carry their sign, NaN carries nothing. -/
inductive FloatVal where
  | finite (q : ℚ)
  | inf (negative : Bool)
  | nan
deriving DecidableEq, Repr

/-- isInf is Go's `math.IsInf(x, 0)`: true exactly for the two infinities
(false for NaN and for every finite value). -/
def isInf : FloatVal → Bool
  | .inf _ => true
  | _ => false

/-- GeoCoord is the source's `GeoCoord`, latitude and longitude in radians. -/
structure GeoCoord where
  lat : FloatVal
  lon : FloatVal

/-- GeoToH3 is the source's `GeoToH3`: the resolution guard, then the source's
coordinate guard `!math.IsInf(g.lat, 0) || !math.IsInf(g.lon, 0)`, then the
floating-point pipeline `_geoToFaceIjk` / `_faceIjkToH3`, which is abstracted
as the parameter `geoPart` (every theorem below holds for any geoPart). -/
def GeoToH3 (geoPart : GeoCoord → Int → Nat) (g : GeoCoord) (res : Int) : Nat :=
  if res < 0 ∨ (MAX_H3_RES : Int) < res then H3_NULL
  else if ¬isInf g.lat ∨ ¬isInf g.lon then H3_NULL
  else geoPart g res

/- ======================== Uni-directional edges ======================== -/

/-- GetOriginH3IndexFromUnidirectionalEdge is the source function of the same
name: non-edge modes yield the null index; otherwise the mode is reset to
hexagon and the reserved bits cleared. -/
def GetOriginH3IndexFromUnidirectionalEdge (edge : Nat) : Nat :=
  if H3_GET_MODE edge ≠ H3_UNIEDGE_MODE then H3_NULL
  else H3_SET_RESERVED_BITS (H3_SET_MODE edge H3_HEXAGON_MODE) 0

/-- GetDestinationH3IndexFromUnidirectionalEdge is the source function of the
same name.  `h3NeighborRotations` lives in a file outside the staged sources;
it is a parameter `(origin, direction, rotations) to (neighbor, rotations)`,
of which the source uses the neighbor. -/
def GetDestinationH3IndexFromUnidirectionalEdge
    (h3NeighborRotations : Nat → Nat → Nat → Nat × Nat) (edge : Nat) : Nat :=
  if H3_GET_MODE edge ≠ H3_UNIEDGE_MODE then H3_NULL
  else
    let direction := H3_GET_RESERVED_BITS edge
    let rotations := 0
    (h3NeighborRotations (GetOriginH3IndexFromUnidirectionalEdge edge)
      direction rotations).1

/-- H3UnidirectionalEdgeIsValid is the source function of the same name: edge
mode, direction in 1..6, the pentagon K exclusion, then origin validity. -/
def H3UnidirectionalEdgeIsValid (isPent : Nat → Bool) (edge : Nat) : Bool :=
  if H3_GET_MODE edge ≠ H3_UNIEDGE_MODE then false
  else
    let neighborDirection := H3_GET_RESERVED_BITS edge
    if neighborDirection ≤ 0 ∨ 7 ≤ neighborDirection then false
    else
      let origin := GetOriginH3IndexFromUnidirectionalEdge edge
      if H3IsPentagon isPent origin ∧ neighborDirection = 1 then false
      else H3IsValid isPent origin

/- ======================== Overage adjustment ======================== -/

/-- Overage is the source's `Overage` enum. -/
inductive Overage where
  | NO_OVERAGE
  | FACE_EDGE
  | NEW_FACE
deriving DecidableEq, Repr

/-- FaceIJK is the source's `FaceIJK`.  The face number indexes the fixed
20-entry tables, so it is modelled as `Nat` (a negative face would make the Go
code panic on table access). -/
structure FaceIJK where
  face : Nat
  coord : CoordIJK
deriving DecidableEq, Repr

instance : Inhabited CoordIJK := ⟨⟨0, 0, 0⟩⟩

/-- FaceOrientIJK is the source's `FaceOrientIJK`. -/
structure FaceOrientIJK where
  face : Nat
  translate : CoordIJK
  ccwRot60 : Nat
deriving DecidableEq, Repr, Inhabited

/-- IJ is the faceNeighbors index of the ij quadrant. -/
def IJ : Nat := 1

/-- KI is the faceNeighbors index of the ki quadrant. -/
def KI : Nat := 2

/-- JK is the faceNeighbors index of the jk quadrant. -/
def JK : Nat := 3

/-- faceNeighbors is the source's 20 x 4 `faceNeighbors` table: for each face,
the central face then the ij, ki and jk quadrant neighbors, each with its
translation and count of 60-degree ccw rotations. -/
def faceNeighbors : List (List FaceOrientIJK) :=
  [ [⟨0, ⟨0, 0, 0⟩, 0⟩, ⟨4, ⟨2, 0, 2⟩, 1⟩, ⟨1, ⟨2, 2, 0⟩, 5⟩, ⟨5, ⟨0, 2, 2⟩, 3⟩],
    [⟨1, ⟨0, 0, 0⟩, 0⟩, ⟨0, ⟨2, 0, 2⟩, 1⟩, ⟨2, ⟨2, 2, 0⟩, 5⟩, ⟨6, ⟨0, 2, 2⟩, 3⟩],
    [⟨2, ⟨0, 0, 0⟩, 0⟩, ⟨1, ⟨2, 0, 2⟩, 1⟩, ⟨3, ⟨2, 2, 0⟩, 5⟩, ⟨7, ⟨0, 2, 2⟩, 3⟩],
    [⟨3, ⟨0, 0, 0⟩, 0⟩, ⟨2, ⟨2, 0, 2⟩, 1⟩, ⟨4, ⟨2, 2, 0⟩, 5⟩, ⟨8, ⟨0, 2, 2⟩, 3⟩],
    [⟨4, ⟨0, 0, 0⟩, 0⟩, ⟨3, ⟨2, 0, 2⟩, 1⟩, ⟨0, ⟨2, 2, 0⟩, 5⟩, ⟨9, ⟨0, 2, 2⟩, 3⟩],
    [⟨5, ⟨0, 0, 0⟩, 0⟩, ⟨10, ⟨2, 2, 0⟩, 3⟩, ⟨14, ⟨2, 0, 2⟩, 3⟩, ⟨0, ⟨0, 2, 2⟩, 3⟩],
    [⟨6, ⟨0, 0, 0⟩, 0⟩, ⟨11, ⟨2, 2, 0⟩, 3⟩, ⟨10, ⟨2, 0, 2⟩, 3⟩, ⟨1, ⟨0, 2, 2⟩, 3⟩],
    [⟨7, ⟨0, 0, 0⟩, 0⟩, ⟨12, ⟨2, 2, 0⟩, 3⟩, ⟨11, ⟨2, 0, 2⟩, 3⟩, ⟨2, ⟨0, 2, 2⟩, 3⟩],
    [⟨8, ⟨0, 0, 0⟩, 0⟩, ⟨13, ⟨2, 2, 0⟩, 3⟩, ⟨12, ⟨2, 0, 2⟩, 3⟩, ⟨3, ⟨0, 2, 2⟩, 3⟩],
    [⟨9, ⟨0, 0, 0⟩, 0⟩, ⟨14, ⟨2, 2, 0⟩, 3⟩, ⟨13, ⟨2, 0, 2⟩, 3⟩, ⟨4, ⟨0, 2, 2⟩, 3⟩],
    [⟨10, ⟨0, 0, 0⟩, 0⟩, ⟨5, ⟨2, 2, 0⟩, 3⟩, ⟨6, ⟨2, 0, 2⟩, 3⟩, ⟨15, ⟨0, 2, 2⟩, 3⟩],
    [⟨11, ⟨0, 0, 0⟩, 0⟩, ⟨6, ⟨2, 2, 0⟩, 3⟩, ⟨7, ⟨2, 0, 2⟩, 3⟩, ⟨16, ⟨0, 2, 2⟩, 3⟩],
    [⟨12, ⟨0, 0, 0⟩, 0⟩, ⟨7, ⟨2, 2, 0⟩, 3⟩, ⟨8, ⟨2, 0, 2⟩, 3⟩, ⟨17, ⟨0, 2, 2⟩, 3⟩],
    [⟨13, ⟨0, 0, 0⟩, 0⟩, ⟨8, ⟨2, 2, 0⟩, 3⟩, ⟨9, ⟨2, 0, 2⟩, 3⟩, ⟨18, ⟨0, 2, 2⟩, 3⟩],
    [⟨14, ⟨0, 0, 0⟩, 0⟩, ⟨9, ⟨2, 2, 0⟩, 3⟩, ⟨5, ⟨2, 0, 2⟩, 3⟩, ⟨19, ⟨0, 2, 2⟩, 3⟩],
    [⟨15, ⟨0, 0, 0⟩, 0⟩, ⟨16, ⟨2, 0, 2⟩, 1⟩, ⟨19, ⟨2, 2, 0⟩, 5⟩, ⟨10, ⟨0, 2, 2⟩, 3⟩],
    [⟨16, ⟨0, 0, 0⟩, 0⟩, ⟨17, ⟨2, 0, 2⟩, 1⟩, ⟨15, ⟨2, 2, 0⟩, 5⟩, ⟨11, ⟨0, 2, 2⟩, 3⟩],
    [⟨17, ⟨0, 0, 0⟩, 0⟩, ⟨18, ⟨2, 0, 2⟩, 1⟩, ⟨16, ⟨2, 2, 0⟩, 5⟩, ⟨12, ⟨0, 2, 2⟩, 3⟩],
    [⟨18, ⟨0, 0, 0⟩, 0⟩, ⟨19, ⟨2, 0, 2⟩, 1⟩, ⟨17, ⟨2, 2, 0⟩, 5⟩, ⟨13, ⟨0, 2, 2⟩, 3⟩],
    [⟨19, ⟨0, 0, 0⟩, 0⟩, ⟨15, ⟨2, 0, 2⟩, 1⟩, ⟨18, ⟨2, 2, 0⟩, 5⟩, ⟨14, ⟨0, 2, 2⟩, 3⟩] ]

/-- maxDimByCIIres is the source's overage distance table (index = resolution,
odd entries unused placeholders). -/
def maxDimByCIIres : List Int :=
  [2, -1, 14, -1, 98, -1, 686, -1, 4802, -1, 33614, -1, 235298, -1, 1647086, -1,
   11529602]

/-- unitScaleByCIIres is the source's unit scale distance table. -/
def unitScaleByCIIres : List Int :=
  [1, -1, 7, -1, 49, -1, 343, -1, 2401, -1, 16807, -1, 117649, -1, 823543, -1,
   5764801]

/-- adjustOverageClassII is `_adjustOverageClassII`, one pass of the overage
adjustment: on-edge detection for substrate grids, quadrant selection (with the
pentagon leading-4 rotation in the ki quadrant), neighbor-face rotation and
translation, and the post-translation edge re-check.  Table reads use `get!`
(an index outside the table would make Go panic; every resolution used here is
within the tables). -/
def adjustOverageClassII (fijk : FaceIJK) (res : Nat) (pentLeading4 : Bool)
    (substrate : Bool) : Overage × FaceIJK :=
  let ijk := fijk.coord
  let maxDim0 := maxDimByCIIres.get! res
  let maxDim := if substrate then maxDim0 * 3 else maxDim0
  if substrate ∧ ijk.i + ijk.j + ijk.k = maxDim then (.FACE_EDGE, fijk)
  else if maxDim < ijk.i + ijk.j + ijk.k then
    let oriIjk : FaceOrientIJK × CoordIJK :=
      if 0 < ijk.k then
        if 0 < ijk.j then ((faceNeighbors.get! fijk.face).get! JK, ijk)
        else
          let fo := (faceNeighbors.get! fijk.face).get! KI
          let ijk :=
            if pentLeading4 then
              let origin : CoordIJK := ⟨maxDim, 0, 0⟩
              ijkAdd ((ijkSub ijk origin).Rotate60cw) origin
            else ijk
          (fo, ijk)
      else ((faceNeighbors.get! fijk.face).get! IJ, ijk)
    let fijkOrient := oriIjk.1
    let ijk := oriIjk.2
    let face := fijkOrient.face
    let ijk := rotate60ccwN ijk fijkOrient.ccwRot60
    let unitScale0 := unitScaleByCIIres.get! res
    let unitScale := if substrate then unitScale0 * 3 else unitScale0
    let transVec := ijkScale fijkOrient.translate unitScale
    let ijk := ijkNormalize (ijkAdd ijk transVec)
    if substrate ∧ ijk.i + ijk.j + ijk.k = maxDim then (.FACE_EDGE, ⟨face, ijk⟩)
    else (.NEW_FACE, ⟨face, ijk⟩)
  else (.NO_OVERAGE, fijk)

/-- adjustPentVertOverage models `_adjustPentVertOverage`.  The Go source loops
`for { overage = _adjustOverageClassII(fijk, res, false, true); if overage !=
NEW_FACE { break } }` with no bound on the number of passes, so the model takes
the pass budget as explicit fuel: `some` is the result the Go loop reaches
within `fuel` passes, `none` means the classifier still reported NEW_FACE after
`fuel` passes. -/
def adjustPentVertOverage (fuel : Nat) (fijk : FaceIJK) (res : Nat) :
    Option (Overage × FaceIJK) :=
  match fuel with
  | 0 => none
  | n + 1 =>
    let step := adjustOverageClassII fijk res false true
    if step.1 ≠ .NEW_FACE then some step
    else adjustPentVertOverage n step.2 res

/-- H3_BC_MASK_NEGATIVE is the 64-bit complement of the base-cell mask. -/
def H3_BC_MASK_NEGATIVE : Nat := UINT64_MAX ^^^ H3_BC_MASK

/-- H3_SET_BASE_CELL is the source's `H3_SET_BASE_CELL`. -/
def H3_SET_BASE_CELL (h bc : Nat) : Nat :=
  (h &&& H3_BC_MASK_NEGATIVE) ||| (bc <<< H3_BC_OFFSET)

/-- setH3Index is the source's `_setH3Index`: start from H3_INIT, set hexagon
mode, resolution and base cell, and write `initDigit` at resolutions 1..res. -/
def setH3Index (res baseCell initDigit : Nat) : Nat :=
  (List.range' 1 res).foldl (fun acc r => H3_SET_INDEX_DIGIT acc r initDigit)
    (H3_SET_BASE_CELL (H3_SET_RESOLUTION (H3_SET_MODE H3_INIT H3_HEXAGON_MODE) res)
      baseCell)

/-- cellSpec is the claim's validity property, stated over the codec fields:
high bit zero, hexagon mode, reserved bits zero, base cell in range, digits at
resolutions 1..res in 0..6, digits above res equal to 7, and for a pentagon
base cell the first non-zero digit is not K=1. -/
def cellSpec (isPent : Nat → Bool) (h : Nat) : Prop :=
  H3_GET_HIGH_BIT h = 0 ∧ H3_GET_MODE h = H3_HEXAGON_MODE ∧
  H3_GET_RESERVED_BITS h = 0 ∧ H3_GET_BASE_CELL h < NUM_BASE_CELLS ∧
  H3_GET_RESOLUTION h ≤ MAX_H3_RES ∧
  (∀ r, 1 ≤ r → r ≤ H3_GET_RESOLUTION h → H3_GET_INDEX_DIGIT h r ≤ 6) ∧
  (∀ r, H3_GET_RESOLUTION h < r → r ≤ MAX_H3_RES → H3_GET_INDEX_DIGIT h r = 7) ∧
  (isPent (H3_GET_BASE_CELL h) = true →
    ∀ r, (List.range' 1 (H3_GET_RESOLUTION h)).find?
        (fun r' => H3_GET_INDEX_DIGIT h r' != 0) = some r →
      H3_GET_INDEX_DIGIT h r ≠ 1)

/-- Vec3d is the source's `Vec3d`, float64 components idealized as reals. -/
structure Vec3d where
  x : ℝ
  y : ℝ
  z : ℝ

/-- geoToVec3d is `_geoToVec3d` with float64 arithmetic idealized as real
arithmetic: the source assigns x from sin(lat) and y, z from cos/sin of the
longitude scaled by cos(lat). -/
noncomputable def geoToVec3d (lat lon : ℝ) : Vec3d :=
  let r := Real.cos lat
  { x := Real.sin lat, y := Real.cos lon * r, z := Real.sin lon * r }

/-- faceCenterGeo is the source's `faceCenterGeo` table: icosahedron face
centers in latitude/longitude radians, the float64 literals taken as exact
rationals. -/
def faceCenterGeo : List (ℚ × ℚ) :=
  [(0.803582649718989942, 1.248397419617396099),
   (1.307747883455638156, 2.536945009877921159),
   (1.054751253523952054, -1.347517358900396623),
   (0.600191595538186799, -0.450603909469755746),
   (0.491715428198773866, 0.401988202911306943),
   (0.172745327415618701, 1.678146885280433686),
   (0.605929321571350690, 2.953923329812411617),
   (0.427370518328979641, -1.888876200336285401),
   (-0.079066118549212831, -0.733429513380867741),
   (-0.230961644455383637, 0.506495587332349035),
   (0.079066118549212831, 2.408163140208925497),
   (0.230961644455383637, -2.635097066257444203),
   (-0.172745327415618701, -1.463445768309359553),
   (-0.605929321571350690, -0.187669323777381622),
   (-0.427370518328979641, 1.252716453253507838),
   (-0.600191595538186799, 2.690988744120037492),
   (-0.491715428198773866, -2.739604450678486295),
   (-0.803582649718989942, -1.893195233972397139),
   (-1.307747883455638156, -0.604647643711872080),
   (-1.054751253523952054, 1.794075294689396615) ]

/-- faceCenterPoint is the source's `faceCenterPoint` table: icosahedron face
centers as unit-sphere Cartesian points. -/
def faceCenterPoint : List (ℚ × ℚ × ℚ) :=
  [(0.2199307791404606, 0.6583691780274996, 0.7198475378926182),
   (-0.2139234834501421, 0.1478171829550703, 0.9656017935214205),
   (0.1092625278784797, -0.4811951572873210, 0.8697775121287253),
   (0.7428567301586791, -0.3593941678278028, 0.5648005936517033),
   (0.8112534709140969, 0.3448953237639384, 0.4721387736413930),
   (-0.1055498149613921, 0.9794457296411413, 0.1718874610009365),
   (-0.8075407579970092, 0.1533552485898818, 0.5695261994882688),
   (-0.2846148069787907, -0.8644080972654206, 0.4144792552473539),
   (0.7405621473854482, -0.6673299564565524, -0.0789837646326737),
   (0.8512303986474293, 0.4722343788582681, -0.2289137388687808),
   (-0.7405621473854481, 0.6673299564565524, 0.0789837646326737),
   (-0.8512303986474292, -0.4722343788582682, 0.2289137388687808),
   (0.1055498149613919, -0.9794457296411413, -0.1718874610009365),
   (0.8075407579970092, -0.1533552485898819, -0.5695261994882688),
   (0.2846148069787908, 0.8644080972654204, -0.4144792552473539),
   (-0.7428567301586791, 0.3593941678278027, -0.5648005936517033),
   (-0.8112534709140971, -0.3448953237639382, -0.4721387736413930),
   (-0.2199307791404607, -0.6583691780274996, -0.7198475378926182),
   (0.2139234834501420, -0.1478171829550704, -0.9656017935214205),
   (-0.1092625278784796, 0.4811951572873210, -0.8697775121287253) ]


/- ======================== Theorems ======================== -/

/-- ijkNormalize subtracts the minimum component from all three. -/
theorem ijkNormalize_eq (c : CoordIJK) :
    ijkNormalize c =
      ⟨c.i - min (min c.i c.j) c.k, c.j - min (min c.i c.j) c.k,
        c.k - min (min c.i c.j) c.k⟩ := by
  obtain ⟨ci, cj, ck⟩ := c
  simp only [ijkNormalize]
  split_ifs <;> simp_all only [CoordIJK.mk.injEq] <;> omega

/-- C9: for every CoordIJK, ToCube yields a cube triple summing to zero, and
cubeToIjk after ToCube returns the normalization of the input. -/

theorem toCube_cubeToIjk_roundtrip (c : CoordIJK) :
    (CoordIJK.ToCube c).i + (CoordIJK.ToCube c).j + (CoordIJK.ToCube c).k = 0 ∧
    cubeToIjk (CoordIJK.ToCube c) = ijkNormalize c := by
  constructor
  · simp [CoordIJK.ToCube]
    ring
  · show ijkNormalize ⟨-(-c.i + c.k), c.j - c.k, 0⟩ = ijkNormalize c
    rw [ijkNormalize_eq, ijkNormalize_eq]
    simp only [CoordIJK.mk.injEq]
    omega

/-- C3: evidence for the divergence between the port and the spec: upAp7 and
upAp7r truncate the divisions toward zero (the Go expression `(3*i - j) / 7.0`
is integer division), where the spec requires rounding to the nearest integer;
at (2,2,0) the code yields the origin while the rounded maps yield (1,1,0). -/

theorem upAp7_truncation_mismatch :
    CoordIJK.upAp7 ⟨2, 2, 0⟩ = ⟨0, 0, 0⟩ ∧ upAp7Round ⟨2, 2, 0⟩ = ⟨1, 1, 0⟩ ∧
    CoordIJK.upAp7r ⟨2, 2, 0⟩ = ⟨0, 0, 0⟩ ∧ upAp7rRound ⟨2, 2, 0⟩ = ⟨1, 1, 0⟩ := by
  decide

/-- H3IsValid rejects the null index for every pentagon predicate. -/
theorem isValid_null (isPent : Nat → Bool) : H3IsValid isPent H3_NULL = false := by
  rfl

/-- C1: evidence that GeoToH3 does not return a valid cell for finite
coordinates at any resolution: the source's inverted finiteness guard returns
the null sentinel whenever a coordinate is not infinite, and the null sentinel
is not a valid cell. -/

theorem geoToH3_finite_is_null (geoPart : GeoCoord → Int → Nat) (g : GeoCoord)
    (res : Int) (hfin : isInf g.lat = false) :
    GeoToH3 geoPart g res = H3_NULL ∧ ∀ isPent, H3IsValid isPent H3_NULL = false := by
  refine ⟨?_, fun isPent => isValid_null isPent⟩
  unfold GeoToH3
  split_ifs with h1 h2
  · rfl
  · rfl
  · exfalso
    apply h2
    left
    simp [hfin]

theorem geoToH3_finite_is_null_witness :
    GeoToH3 (fun _ _ => 1) ⟨.finite 0, .finite 0⟩ 5 = H3_NULL ∧
    ∀ isPent, H3IsValid isPent H3_NULL = false :=
  geoToH3_finite_is_null (fun _ _ => 1) ⟨.finite 0, .finite 0⟩ 5 rfl

/-- C2: evidence that the geo round trip cannot return the cell: for every
valid cell C and every coordinate pair with a non-infinite component (as
H3ToGeo produces), GeoToH3 at C's resolution returns the null sentinel, which
differs from C. -/

theorem geo_roundtrip_fails (isPent : Nat → Bool) (geoPart : GeoCoord → Int → Nat)
    (h : Nat) (g : GeoCoord) (hval : H3IsValid isPent h = true)
    (hfin : isInf g.lat = false ∨ isInf g.lon = false) :
    GeoToH3 geoPart g (H3_GET_RESOLUTION h) ≠ h := by
  have hz : GeoToH3 geoPart g (H3_GET_RESOLUTION h) = H3_NULL := by
    unfold GeoToH3
    split_ifs with h1 h2
    · rfl
    · rfl
    · exfalso
      apply h2
      rcases hfin with hf | hf
      · left
        simp [hf]
      · right
        simp [hf]
  rw [hz]
  intro heq
  rw [← heq] at hval
  rw [isValid_null] at hval
  exact Bool.false_ne_true hval

theorem geo_roundtrip_fails_witness :
    GeoToH3 (fun _ _ => 0) ⟨.finite 0, .finite 0⟩
      (H3_GET_RESOLUTION (setH3Index 0 0 0)) ≠ setH3Index 0 0 0 :=
  geo_roundtrip_fails (fun _ => false) (fun _ _ => 0) (setH3Index 0 0 0)
    ⟨.finite 0, .finite 0⟩ (by decide) (Or.inl rfl)

/-- C10: for every index whose mode is not the uni-directional-edge mode 2,
the origin and destination extractors return the null sentinel and edge
validation returns false. -/

theorem edge_functions_reject_non_edge_mode (isPent : Nat → Bool)
    (h3NeighborRotations : Nat → Nat → Nat → Nat × Nat) (edge : Nat)
    (hm : H3_GET_MODE edge ≠ H3_UNIEDGE_MODE) :
    GetOriginH3IndexFromUnidirectionalEdge edge = H3_NULL ∧
    GetDestinationH3IndexFromUnidirectionalEdge h3NeighborRotations edge = H3_NULL ∧
    H3UnidirectionalEdgeIsValid isPent edge = false := by
  refine ⟨?_, ?_, ?_⟩
  · unfold GetOriginH3IndexFromUnidirectionalEdge
    rw [if_pos hm]
  · unfold GetDestinationH3IndexFromUnidirectionalEdge
    rw [if_pos hm]
  · unfold H3UnidirectionalEdgeIsValid
    rw [if_pos hm]

theorem edge_functions_reject_witness :
    GetOriginH3IndexFromUnidirectionalEdge 0 = H3_NULL ∧
    GetDestinationH3IndexFromUnidirectionalEdge (fun _ _ _ => (0, 0)) 0 = H3_NULL ∧
    H3UnidirectionalEdgeIsValid (fun _ => false) 0 = false :=
  edge_functions_reject_non_edge_mode (fun _ => false) (fun _ _ _ => (0, 0)) 0
    (by decide)
theorem testBit_small (a m c : Nat) (ha : a < 2 ^ c) (hcm : c ≤ m) :
    a.testBit m = false := by
  apply Nat.testBit_lt_two_pow
  exact lt_of_lt_of_le ha (Nat.pow_le_pow_right (by norm_num) hcm)

theorem getRes_setDigit_setRes (x v d r : Nat) (hv : v < 16) (hd : d < 8)
    (hr1 : 1 ≤ r) (hr15 : r ≤ 15) :
    H3_GET_RESOLUTION (H3_SET_INDEX_DIGIT (H3_SET_RESOLUTION x v) r d) = v := by
  apply Nat.eq_of_testBit_eq
  intro t
  have hs3 : (MAX_H3_RES - r) * H3_PER_DIGIT_OFFSET ≤ 42 := by
    simp only [MAX_H3_RES, H3_PER_DIGIT_OFFSET]; omega
  simp only [H3_GET_RESOLUTION, H3_SET_INDEX_DIGIT, H3_SET_RESOLUTION, H3_RES_MASK,
    H3_RES_MASK_NEGATIVE, H3_RES_OFFSET, H3_DIGIT_MASK, UINT64_MAX,
    Nat.testBit_shiftRight, Nat.testBit_land, Nat.testBit_lor, Nat.testBit_xor,
    Nat.testBit_shiftLeft, ge_iff_le]
  by_cases ht : t < 4
  · have e1 : Nat.testBit 15 (52 + t - 52) = true := by
      interval_cases t <;> decide
    have e2 : Nat.testBit d (52 + t - (MAX_H3_RES - r) * H3_PER_DIGIT_OFFSET) = false :=
      testBit_small d _ 3 hd (by omega)
    have e3 : Nat.testBit 7 (52 + t - (MAX_H3_RES - r) * H3_PER_DIGIT_OFFSET) = false :=
      testBit_small 7 _ 3 (by norm_num) (by omega)
    have e4 : Nat.testBit (2 ^ 64 - 1) (52 + t) = true := by
      rw [Nat.testBit_two_pow_sub_one]; simp; omega
    have e5 : decide (52 ≤ 52 + t) = true := by simp
    have e6 : decide ((MAX_H3_RES - r) * H3_PER_DIGIT_OFFSET ≤ 52 + t) = true := by
      simp; omega
    rw [e1, e2, e3, e4, e5, e6]
    simp
  · have e1 : Nat.testBit 15 (52 + t - 52) = false := by
      have h52 : 52 + t - 52 = t := by omega
      rw [h52]; exact testBit_small 15 t 4 (by norm_num) (by omega)
    rw [e1]
    have e2 : Nat.testBit v t = false := testBit_small v t 4 hv (by omega)
    rw [e2]
    simp

theorem getRes_makeDirectChild (h d : Nat) (hd : d < 8)
    (hr : H3_GET_RESOLUTION h ≤ 14) :
    H3_GET_RESOLUTION (makeDirectChild h d) = H3_GET_RESOLUTION h + 1 := by
  apply getRes_setDigit_setRes <;> omega

theorem isValid_digit_above_res (isPent : Nat → Bool) (h : Nat)
    (hv : H3IsValid isPent h = true) :
    ∀ r, H3_GET_RESOLUTION h < r → r ≤ 15 → H3_GET_INDEX_DIGIT h r = 7 := by
  intro r hlo hhi
  unfold H3IsValid at hv
  split_ifs at hv
  rw [List.all_eq_true] at hv
  have hmem : r ∈ List.range' (H3_GET_RESOLUTION h + 1)
      (MAX_H3_RES - H3_GET_RESOLUTION h) := by
    rw [List.mem_range']
    refine ⟨r - (H3_GET_RESOLUTION h + 1), ?_, ?_⟩
    · simp only [MAX_H3_RES]
      omega
    · omega
  have := hv r hmem
  simpa using this
theorem toParent_restores (h r d : Nat) (h64 : h < 2 ^ 64) (hr : r ≤ 14)
    (hd : d < 8) (hres : H3_GET_RESOLUTION h = r)
    (hdig : H3_GET_INDEX_DIGIT h (r + 1) = 7) :
    H3_SET_INDEX_DIGIT
      (H3_SET_RESOLUTION (H3_SET_INDEX_DIGIT (H3_SET_RESOLUTION h (r + 1)) (r + 1) d) r)
      (r + 1) 7 = h := by
  have hResBit : ∀ u, u < 4 → h.testBit (52 + u) = r.testBit u := by
    intro u hu
    have hc := congrArg (fun x => Nat.testBit x u) hres
    simp only [H3_GET_RESOLUTION, H3_RES_MASK, H3_RES_OFFSET, Nat.testBit_shiftRight,
      Nat.testBit_land, Nat.testBit_shiftLeft] at hc
    have h15 : Nat.testBit 15 (52 + u - 52) = true := by
      have : 52 + u - 52 = u := by omega
      rw [this]
      interval_cases u <;> decide
    simp only [h15, Bool.and_true, Nat.le_add_right, decide_eq_true_eq,
      decide_True] at hc
    simpa using hc
  have hDigBit : ∀ u, u < 3 →
      h.testBit ((MAX_H3_RES - (r + 1)) * H3_PER_DIGIT_OFFSET + u) = true := by
    intro u hu
    have hc := congrArg (fun x => Nat.testBit x u) hdig
    simp only [H3_GET_INDEX_DIGIT, H3_DIGIT_MASK, Nat.testBit_shiftRight,
      Nat.testBit_land] at hc
    have h7 : Nat.testBit 7 u = true := by interval_cases u <;> decide
    rw [h7] at hc
    simpa using hc
  have hs42 : (MAX_H3_RES - (r + 1)) * H3_PER_DIGIT_OFFSET ≤ 42 := by
    simp only [MAX_H3_RES, H3_PER_DIGIT_OFFSET]
    omega
  apply Nat.eq_of_testBit_eq
  intro t
  simp only [H3_SET_INDEX_DIGIT, H3_SET_RESOLUTION, H3_RES_MASK, H3_RES_MASK_NEGATIVE,
    H3_RES_OFFSET, H3_DIGIT_MASK, UINT64_MAX, Nat.testBit_lor, Nat.testBit_land,
    Nat.testBit_xor, Nat.testBit_shiftLeft, Nat.testBit_two_pow_sub_one, ge_iff_le]
  set s := (MAX_H3_RES - (r + 1)) * H3_PER_DIGIT_OFFSET with hsdef
  by_cases hbig : 64 ≤ t
  · have eU : decide (t < 64) = false := by simp; omega
    have e15 : Nat.testBit 15 (t - 52) = false := testBit_small _ _ 4 (by norm_num) (by omega)
    have e7 : Nat.testBit 7 (t - s) = false := testBit_small _ _ 3 (by norm_num) (by omega)
    have ed : Nat.testBit d (t - s) = false := testBit_small _ _ 3 hd (by omega)
    have er1 : Nat.testBit (r + 1) (t - 52) = false := testBit_small _ _ 4 (by omega) (by omega)
    have er2 : Nat.testBit r (t - 52) = false := testBit_small _ _ 4 (by omega) (by omega)
    have eh : h.testBit t = false := testBit_small _ _ 64 h64 hbig
    rw [eU, e15, e7, ed, er1, er2, eh]
    simp
  · push_neg at hbig
    have eU : decide (t < 64) = true := by simp; omega
    by_cases hmid : 52 ≤ t ∧ t < 56
    · have e15 : Nat.testBit 15 (t - 52) = true := by
        obtain ⟨hm1, hm2⟩ := hmid
        interval_cases t <;> decide
      have e52 : decide (52 ≤ t) = true := by simp; omega
      have es : decide (s ≤ t) = true := by simp; omega
      have e7 : Nat.testBit 7 (t - s) = false := testBit_small _ _ 3 (by norm_num) (by omega)
      have ed : Nat.testBit d (t - s) = false := testBit_small _ _ 3 hd (by omega)
      have eh : h.testBit t = r.testBit (t - 52) := by
        have := hResBit (t - 52) (by omega)
        have ht : 52 + (t - 52) = t := by omega
        rw [ht] at this
        exact this
      rw [eU, e15, e52, es, e7, ed, eh]
      simp
    · by_cases hdigt : s ≤ t ∧ t < s + 3
      · have e52 : decide (52 ≤ t) = false := by simp; omega
        have es : decide (s ≤ t) = true := by simp [hdigt.1]
        have e7 : Nat.testBit 7 (t - s) = true := by
          have : t - s = 0 ∨ t - s = 1 ∨ t - s = 2 := by omega
          rcases this with hcase | hcase | hcase <;> rw [hcase] <;> decide
        have eh : h.testBit t = true := by
          have := hDigBit (t - s) (by omega)
          have ht : s + (t - s) = t := by omega
          rw [ht] at this
          exact this
        rw [eU, e52, es, e7, eh]
        simp
      · -- untouched bits
        have e15 : (decide (52 ≤ t) && Nat.testBit 15 (t - 52)) = false := by
          by_cases h52 : 52 ≤ t
          · have : Nat.testBit 15 (t - 52) = false := testBit_small _ _ 4 (by norm_num) (by omega)
            simp [this]
          · simp [h52]
        have er1 : (decide (52 ≤ t) && Nat.testBit (r + 1) (t - 52)) = false := by
          by_cases h52 : 52 ≤ t
          · have : Nat.testBit (r + 1) (t - 52) = false := testBit_small _ _ 4 (by omega) (by omega)
            simp [this]
          · simp [h52]
        have er2 : (decide (52 ≤ t) && Nat.testBit r (t - 52)) = false := by
          by_cases h52 : 52 ≤ t
          · have : Nat.testBit r (t - 52) = false := testBit_small _ _ 4 (by omega) (by omega)
            simp [this]
          · simp [h52]
        have e7 : (decide (s ≤ t) && Nat.testBit 7 (t - s)) = false := by
          by_cases hst : s ≤ t
          · have : Nat.testBit 7 (t - s) = false := testBit_small _ _ 3 (by norm_num) (by omega)
            simp [this]
          · simp [hst]
        have ed : (decide (s ≤ t) && Nat.testBit d (t - s)) = false := by
          by_cases hst : s ≤ t
          · have : Nat.testBit d (t - s) = false := testBit_small _ _ 3 hd (by omega)
            simp [this]
          · simp [hst]
        rw [eU, e15, er1, er2, e7, ed]
        simp

theorem h3ToParent_child (h d : Nat) (h64 : h < 2 ^ 64) (hd : d < 8)
    (hr : H3_GET_RESOLUTION h ≤ 14)
    (hdig : H3_GET_INDEX_DIGIT h (H3_GET_RESOLUTION h + 1) = 7) :
    H3ToParent (makeDirectChild h d) (H3_GET_RESOLUTION h) = h := by
  unfold H3ToParent
  rw [getRes_makeDirectChild h d hd hr]
  rw [if_neg (by push_cast; omega), if_neg (by push_cast; omega),
    if_neg (by push_cast; omega)]
  have hlen : ((↑(H3_GET_RESOLUTION h + 1) : Int) - ↑(H3_GET_RESOLUTION h)).toNat = 1 := by
    omega
  have htn : (↑(H3_GET_RESOLUTION h) : Int).toNat = H3_GET_RESOLUTION h := by omega
  rw [hlen, htn]
  show H3_SET_INDEX_DIGIT
      (H3_SET_RESOLUTION (makeDirectChild h d) (H3_GET_RESOLUTION h))
      (H3_GET_RESOLUTION h + 1) 7 = h
  exact toParent_restores h (H3_GET_RESOLUTION h) d h64 hr hd rfl hdig

theorem h3ToChildren_at_target (isPent : Nat → Bool) (h d : Nat) (acc : List Nat)
    (hd : d < 8) (hr : H3_GET_RESOLUTION h ≤ 14) :
    H3ToChildren isPent (makeDirectChild h d)
      ((H3_GET_RESOLUTION h + 1 : Nat) : Int) acc = acc ++ [makeDirectChild h d] := by
  rw [H3ToChildren]
  rw [getRes_makeDirectChild h d hd hr]
  rw [if_neg (by simp [isValidChildRes]; omega), if_pos rfl]

theorem h3ToChildren_seven (isPent : Nat → Bool) (P : Nat)
    (hpent : H3IsPentagon isPent P = false) (hr : H3_GET_RESOLUTION P ≤ 14) :
    H3ToChildren isPent P ((H3_GET_RESOLUTION P + 1 : Nat) : Int) [] =
      [makeDirectChild P 0, makeDirectChild P 1, makeDirectChild P 2,
        makeDirectChild P 3, makeDirectChild P 4, makeDirectChild P 5,
        makeDirectChild P 6] := by
  rw [H3ToChildren]
  rw [if_neg (by simp [isValidChildRes]; omega)]
  rw [if_neg (by push_cast; omega)]
  rw [hpent]
  simp only [Bool.false_eq_true, if_false]
  rw [h3ToChildren_at_target isPent P 0 _ (by norm_num) hr,
    h3ToChildren_at_target isPent P 1 _ (by norm_num) hr,
    h3ToChildren_at_target isPent P 2 _ (by norm_num) hr,
    h3ToChildren_at_target isPent P 3 _ (by norm_num) hr,
    h3ToChildren_at_target isPent P 4 _ (by norm_num) hr,
    h3ToChildren_at_target isPent P 5 _ (by norm_num) hr,
    h3ToChildren_at_target isPent P 6 _ (by norm_num) hr]
  simp

theorem countParents_seven_children (isPent : Nat → Bool) (P : Nat)
    (hpent : H3IsPentagon isPent P = false)
    (hpar : ∀ d, d < 8 →
      H3ToParent (makeDirectChild P d) (H3_GET_RESOLUTION P) = P) :
    countParents isPent (H3_GET_RESOLUTION P)
      [makeDirectChild P 0, makeDirectChild P 1, makeDirectChild P 2,
        makeDirectChild P 3, makeDirectChild P 4, makeDirectChild P 5,
        makeDirectChild P 6] [] = .ok [(P, 7)] := by
  simp only [countParents, hpar 0 (by norm_num), hpar 1 (by norm_num),
    hpar 2 (by norm_num), hpar 3 (by norm_num), hpar 4 (by norm_num),
    hpar 5 (by norm_num), hpar 6 (by norm_num), hpent,
    mapGet, mapSet, List.find?, beq_self_eq_true, Bool.false_eq_true, if_false]
  norm_num

theorem compactLoop_seven_children (isPent : Nat → Bool) (P : Nat)
    (hpent : H3IsPentagon isPent P = false) (hr : H3_GET_RESOLUTION P ≤ 14)
    (hres : ∀ d, d < 8 →
      H3_GET_RESOLUTION (makeDirectChild P d) = H3_GET_RESOLUTION P + 1)
    (hpar : ∀ d, d < 8 →
      H3ToParent (makeDirectChild P d) (H3_GET_RESOLUTION P) = P) :
    compactLoop isPent
      [makeDirectChild P 0, makeDirectChild P 1, makeDirectChild P 2,
        makeDirectChild P 3, makeDirectChild P 4, makeDirectChild P 5,
        makeDirectChild P 6] [] = .ok [P] := by
  rw [compactLoop]
  rw [if_neg (by simp)]
  rw [hres 0 (by norm_num)]
  have hcast : ((H3_GET_RESOLUTION P + 1 : Nat) : Int) - 1 = H3_GET_RESOLUTION P := by
    push_cast
    ring
  simp only [hcast]
  split
  · rename_i e heq
    rw [hcast] at heq
    rw [countParents_seven_children isPent P hpent hpar] at heq
    cases heq
  · rename_i compactable heq
    rw [hcast] at heq
    rw [countParents_seven_children isPent P hpent hpar] at heq
    have hc : compactable = [(P, 7)] := (Except.ok.inj heq).symm
    subst hc
    have hunc : List.filter
        (fun cell => decide
          ((mapGet [(P, 7)] (H3ToParent cell (H3_GET_RESOLUTION P))).getD 0 < 7))
        [makeDirectChild P 0, makeDirectChild P 1, makeDirectChild P 2,
          makeDirectChild P 3, makeDirectChild P 4, makeDirectChild P 5,
          makeDirectChild P 6] = [] := by
      apply List.filter_eq_nil_iff.mpr
      intro cell hcell
      simp only [List.mem_cons] at hcell
      have hpar7 : ∀ d, d < 8 →
          (mapGet [(P, 7)] (H3ToParent (makeDirectChild P d)
            (H3_GET_RESOLUTION P))).getD 0 = 7 := by
        intro d hd
        rw [hpar d hd]
        simp [mapGet]
      rcases hcell with h | h | h | h | h | h | h | h
      · subst h; rw [hpar7 0 (by norm_num)]; decide
      · subst h; rw [hpar7 1 (by norm_num)]; decide
      · subst h; rw [hpar7 2 (by norm_num)]; decide
      · subst h; rw [hpar7 3 (by norm_num)]; decide
      · subst h; rw [hpar7 4 (by norm_num)]; decide
      · subst h; rw [hpar7 5 (by norm_num)]; decide
      · subst h; rw [hpar7 6 (by norm_num)]; decide
      · exact absurd h (by simp)
    have hfil : List.filter (fun kv => kv.2 == 7) [(P, 7)] = [(P, 7)] := by simp
    rw [hunc, hfil]
    simp only [List.map_cons, List.map_nil, List.append_nil, List.nil_append]
    rw [compactLoop.eq_def]
    simp

/-- C7: for every valid non-pentagon cell P below resolution 15 (for any
pentagon base-cell predicate), Compact applied to the list of P's seven
children at the next resolution returns exactly the one-element set containing
P, with no error. -/

theorem compact_children_of_nonpentagon (isPent : Nat → Bool) (P : Nat)
    (h64 : P < 2 ^ 64) (hval : H3IsValid isPent P = true)
    (hpent : H3IsPentagon isPent P = false) (hr : H3_GET_RESOLUTION P ≤ 14) :
    Compact isPent
      (H3ToChildren isPent P ((H3_GET_RESOLUTION P + 1 : Nat) : Int) []) =
      .ok [P] := by
  rw [h3ToChildren_seven isPent P hpent hr]
  rw [Compact.eq_def]
  simp only
  rw [getRes_makeDirectChild P 0 (by norm_num) hr]
  rw [if_neg (by omega)]
  exact compactLoop_seven_children isPent P hpent hr
    (fun d hd => getRes_makeDirectChild P d hd hr)
    (fun d hd => h3ToParent_child P d h64 hd hr
      (isValid_digit_above_res isPent P hval (H3_GET_RESOLUTION P + 1)
        (by omega) (by omega)))

theorem compact_children_of_nonpentagon_witness :
    Compact (fun _ => false)
      (H3ToChildren (fun _ => false) (setH3Index 0 0 0)
        ((H3_GET_RESOLUTION (setH3Index 0 0 0) + 1 : Nat) : Int) []) =
      .ok [setH3Index 0 0 0] :=
  compact_children_of_nonpentagon (fun _ => false) (setH3Index 0 0 0)
    (by decide) (by decide) (by decide) (by decide)

theorem isValidDigits_iff (isPent : Nat → Bool) (h bc : Nat) :
    ∀ (l : List Nat) (found : Bool),
      isValidDigits isPent h bc l found = true ↔
      ((∀ r ∈ l, H3_GET_INDEX_DIGIT h r ≤ 6) ∧
       (found = false → isPent bc = true →
         ∀ r, l.find? (fun r' => H3_GET_INDEX_DIGIT h r' != 0) = some r →
           H3_GET_INDEX_DIGIT h r ≠ 1)) := by
  intro l
  induction l with
  | nil =>
    intro found
    simp [isValidDigits]
  | cons r rest ih =>
    intro found
    by_cases hd0 : H3_GET_INDEX_DIGIT h r = 0
    · have hfind : List.find? (fun r' => H3_GET_INDEX_DIGIT h r' != 0) (r :: rest) =
          List.find? (fun r' => H3_GET_INDEX_DIGIT h r' != 0) rest := by
        simp [List.find?, hd0]
      rw [hfind]
      constructor
      · intro hl
        have hl' : isValidDigits isPent h bc rest found = true := by
          simpa [isValidDigits, hd0] using hl
        obtain ⟨ha, hb⟩ := (ih found).mp hl'
        refine ⟨?_, hb⟩
        intro r' hr'
        rcases List.mem_cons.mp hr' with he | he
        · subst he; omega
        · exact ha r' he
      · intro ⟨ha, hb⟩
        have : isValidDigits isPent h bc rest found = true :=
          (ih found).mpr ⟨fun r' hr' => ha r' (List.mem_cons_of_mem _ hr'), hb⟩
        simpa [isValidDigits, hd0] using this
    · have hbt : (H3_GET_INDEX_DIGIT h r != 0) = true := by simpa using hd0
      have hfind : List.find? (fun r' => H3_GET_INDEX_DIGIT h r' != 0) (r :: rest) =
          some r := by
        simp [List.find?, hbt]
      rw [hfind]
      cases found with
      | true =>
        by_cases h7 : 7 ≤ H3_GET_INDEX_DIGIT h r
        · constructor
          · intro hl
            exfalso
            have : False := by
              simpa [isValidDigits, hd0, h7] using hl
            exact this
          · intro ⟨ha, _⟩
            have := ha r (List.mem_cons_self r rest)
            omega
        · constructor
          · intro hl
            have hl' : isValidDigits isPent h bc rest true = true := by
              simpa [isValidDigits, hd0, h7] using hl
            obtain ⟨ha, _⟩ := (ih true).mp hl'
            refine ⟨?_, ?_⟩
            · intro r' hr'
              rcases List.mem_cons.mp hr' with he | he
              · subst he; omega
              · exact ha r' he
            · intro hcontra
              cases hcontra
          · intro ⟨ha, _⟩
            have : isValidDigits isPent h bc rest true = true :=
              (ih true).mpr ⟨fun r' hr' => ha r' (List.mem_cons_of_mem _ hr'),
                fun hcontra => by cases hcontra⟩
            simpa [isValidDigits, hd0, h7] using this
      | false =>
        by_cases hpk : isPent bc = true ∧ H3_GET_INDEX_DIGIT h r = 1
        · constructor
          · intro hl
            exfalso
            have : False := by
              simpa [isValidDigits, hd0, hpk] using hl
            exact this
          · intro ⟨_, hb⟩
            exact absurd hpk.2 (hb rfl hpk.1 r rfl)
        · by_cases h7 : 7 ≤ H3_GET_INDEX_DIGIT h r
          · constructor
            · intro hl
              exfalso
              have : False := by
                simpa [isValidDigits, hd0, hpk, h7] using hl
              exact this
            · intro ⟨ha, _⟩
              have := ha r (List.mem_cons_self r rest)
              omega
          · constructor
            · intro hl
              have hl' : isValidDigits isPent h bc rest true = true := by
                simpa [isValidDigits, hd0, hpk, h7] using hl
              obtain ⟨ha, _⟩ := (ih true).mp hl'
              refine ⟨?_, ?_⟩
              · intro r' hr'
                rcases List.mem_cons.mp hr' with he | he
                · subst he; omega
                · exact ha r' he
              · intro _ hpent r' hr'
                have heq' : r = r' := by simpa using hr'
                subst heq'
                intro h1
                exact hpk ⟨hpent, h1⟩
            · intro ⟨ha, _⟩
              have : isValidDigits isPent h bc rest true = true :=
                (ih true).mpr ⟨fun r' hr' => ha r' (List.mem_cons_of_mem _ hr'),
                  fun hcontra => by cases hcontra⟩
              simpa [isValidDigits, hd0, hpk, h7] using this

/-- C5: for every 64-bit word h and every pentagon base-cell predicate,
IsValid h is true exactly when the high bit is 0, the mode is hexagon, the
reserved bits are 0, the base cell is below 122, the resolution is at most 15,
every digit at resolutions 1..res is in 0..6, every digit above res is 7, and
for a pentagon base cell the first non-zero digit is not K=1. -/

theorem isValid_iff_cellSpec (isPent : Nat → Bool) (h : Nat) (h64 : h < 2 ^ 64) :
    H3IsValid isPent h = true ↔ cellSpec isPent h := by
  unfold H3IsValid
  split_ifs with h1 h2 h3 h4 h5 h6
  · simp only [Bool.false_eq_true, false_iff]
    intro hs
    exact h1 hs.1
  · simp only [Bool.false_eq_true, false_iff]
    intro hs
    exact h2 hs.2.1
  · simp only [Bool.false_eq_true, false_iff]
    intro hs
    exact h3 hs.2.2.1
  · simp only [Bool.false_eq_true, false_iff]
    intro hs
    have := hs.2.2.2.1
    omega
  · simp only [Bool.false_eq_true, false_iff]
    intro hs
    have := hs.2.2.2.2.1
    omega
  · constructor
    · intro hall
      rw [List.all_eq_true] at hall
      have hloop := (isValidDigits_iff isPent h (H3_GET_BASE_CELL h)
        (List.range' 1 (H3_GET_RESOLUTION h)) false).mp h6
      refine ⟨by omega, by omega, by omega, by omega, by omega, ?_, ?_, ?_⟩
      · intro r hr1 hr2
        apply hloop.1
        rw [List.mem_range']
        exact ⟨r - 1, by omega, by omega⟩
      · intro r hrlo hrhi
        have hmem : r ∈ List.range' (H3_GET_RESOLUTION h + 1)
            (MAX_H3_RES - H3_GET_RESOLUTION h) := by
          rw [List.mem_range']
          exact ⟨r - (H3_GET_RESOLUTION h + 1), by simp only [MAX_H3_RES] at *; omega,
            by omega⟩
        have := hall r hmem
        simpa using this
      · intro hpent r hfind
        exact hloop.2 rfl hpent r hfind
    · intro hs
      rw [List.all_eq_true]
      intro r hr
      rw [List.mem_range'] at hr
      obtain ⟨i, hi, rfl⟩ := hr
      have := hs.2.2.2.2.2.2.1 (H3_GET_RESOLUTION h + 1 + 1 * i) (by omega)
        (by simp only [MAX_H3_RES] at *; omega)
      simpa using this
  · simp only [Bool.false_eq_true, false_iff]
    intro hs
    apply h6
    rw [isValidDigits_iff]
    constructor
    · intro r hr
      rw [List.mem_range'] at hr
      obtain ⟨i, hi, rfl⟩ := hr
      exact hs.2.2.2.2.2.1 (1 + 1 * i) (by omega) (by omega)
    · intro _ hpent r hfind
      exact hs.2.2.2.2.2.2.2 hpent r hfind

theorem isValid_iff_cellSpec_witness : cellSpec (fun _ => false) 0x85283473fffffff :=
  (isValid_iff_cellSpec (fun _ => false) 0x85283473fffffff (by decide)).mp (by decide)

/-- C6 counterexample: a duplicated cell passes through Compact unreported. -/
theorem compact_duplicate_pair_unreported :
    Compact (fun _ => false) [setH3Index 1 0 0, setH3Index 1 0 0] =
      .ok [setH3Index 1 0 0, setH3Index 1 0 0] := by
  rw [Compact.eq_def]
  simp only
  rw [if_neg (by decide)]
  rw [compactLoop.eq_def]
  simp

/-- countParents on eight copies of one cell always reports the duplicate. -/
theorem countParents_replicate_eight (isPent : Nat → Bool) (parentRes : Int)
    (h : Nat) :
    countParents isPent parentRes [h, h, h, h, h, h, h, h] [] =
      .error CompactError.duplicate := by
  obtain ⟨p, hP⟩ : ∃ p, H3ToParent h parentRes = p := ⟨_, rfl⟩
  by_cases hp : H3IsPentagon isPent p = true
  · simp only [countParents, hP, mapGet, mapSet, List.find?, beq_self_eq_true, hp]
    norm_num
  · simp only [countParents, hP, mapGet, mapSet, List.find?, beq_self_eq_true, hp]
    norm_num

/-- C6 amended: Compact reports ErrCompactDuplicate only when a parent's
count passes 7 (eight copies of one cell at resolution at least 1 suffice),
and no resolution-mismatch error exists: a mixed-resolution input led by a
resolution-0 cell is returned without error. -/

theorem compact_duplicate_only_past_seven (isPent : Nat → Bool) (h g0 g1 : Nat)
    (hres : 1 ≤ H3_GET_RESOLUTION h) (h0 : H3_GET_RESOLUTION g0 = 0) :
    Compact isPent (List.replicate 8 h) = .error CompactError.duplicate ∧
    Compact isPent [g0, g1] = .ok [g0, g1] := by
  constructor
  · rw [show List.replicate 8 h = [h, h, h, h, h, h, h, h] from rfl]
    rw [Compact.eq_def]
    simp only
    rw [if_neg (by omega)]
    rw [compactLoop.eq_def]
    simp only [List.length_cons, List.length_nil]
    rw [if_neg (by omega)]
    split
    · rename_i e heq
      rw [countParents_replicate_eight] at heq
      have he : e = CompactError.duplicate := (Except.error.inj heq).symm
      rw [he]
    · rename_i compactable heq
      rw [countParents_replicate_eight] at heq
      cases heq
  · rw [Compact.eq_def]
    simp only
    rw [if_pos h0]

theorem compact_duplicate_only_past_seven_witness :
    Compact (fun _ => false) (List.replicate 8 (setH3Index 1 0 0)) =
      .error CompactError.duplicate ∧
    Compact (fun _ => false) [setH3Index 0 0 0, setH3Index 1 0 0] =
      .ok [setH3Index 0 0 0, setH3Index 1 0 0] :=
  compact_duplicate_only_past_seven (fun _ => false) (setH3Index 1 0 0)
    (setH3Index 0 0 0) (setH3Index 1 0 0) (by decide) (by decide)

set_option maxRecDepth 100000 in
/-- C8 counterexample: the pentagon-vertex overage loop is not capped by a
small constant: at resolution 0 the input (0,40,40) on face 0 is unfinished
after 5 passes (finishing within 10), and (0,1000,1000) is unfinished even
after 100 passes (finishing within 222). -/
theorem adjustPentVertOverage_not_capped :
    adjustPentVertOverage 5 ⟨0, ⟨0, 40, 40⟩⟩ 0 = none ∧
    (adjustPentVertOverage 10 ⟨0, ⟨0, 40, 40⟩⟩ 0).isSome = true ∧
    adjustPentVertOverage 100 ⟨0, ⟨0, 1000, 1000⟩⟩ 0 = none ∧
    (adjustPentVertOverage 222 ⟨0, ⟨0, 1000, 1000⟩⟩ 0).isSome = true := by
  refine ⟨by decide, by decide, by decide, by decide⟩

/-- C8 amended: _adjustPentVertOverage repeatedly applies the substrate overage
adjustment exactly until the classifier no longer reports a new face: whenever
the loop finishes within any pass budget, the final classification is not
NEW_FACE.  The source places no cap on the number of passes. -/

theorem adjustPentVertOverage_stops_on_non_new_face (fuel : Nat) (fijk : FaceIJK)
    (res : Nat) (ov : Overage) (f' : FaceIJK)
    (hsome : adjustPentVertOverage fuel fijk res = some (ov, f')) :
    ov ≠ Overage.NEW_FACE := by
  induction fuel generalizing fijk with
  | zero => simp [adjustPentVertOverage] at hsome
  | succ n ih =>
    simp only [adjustPentVertOverage] at hsome
    by_cases hne : (adjustOverageClassII fijk res false true).1 ≠ Overage.NEW_FACE
    · rw [if_pos hne] at hsome
      have hinj := Option.some.inj hsome
      intro hcontra
      apply hne
      rw [hinj, hcontra]
    · rw [if_neg hne] at hsome
      exact ih _ hsome

theorem adjustPentVertOverage_stops_witness :
    Overage.NO_OVERAGE ≠ Overage.NEW_FACE :=
  adjustPentVertOverage_stops_on_non_new_face 1 ⟨0, ⟨0, 0, 0⟩⟩ 0
    Overage.NO_OVERAGE ⟨0, ⟨0, 0, 0⟩⟩ (by decide)

/-- C4: evidence against the face-center identity: on face 0 the x component
that _geoToVec3d computes from faceCenterGeo exceeds the tabulated
faceCenterPoint x component by more than 0.45 (the port assigns sin(lat) to x
where the table stores it in z), far beyond floating-point tolerance. -/

theorem geoToVec3d_face_center_mismatch :
    (0.45 : ℝ) <
      (geoToVec3d ((faceCenterGeo.get! 0).1 : ℝ) ((faceCenterGeo.get! 0).2 : ℝ)).x -
        ((faceCenterPoint.get! 0).1 : ℝ) := by
  simp only [faceCenterGeo, faceCenterPoint, List.get!, geoToVec3d]
  have hb := Real.sin_gt_sub_cube
    (x := ((0.803582649718989942 : ℚ) : ℝ)) (by norm_num) (by norm_num)
  push_cast at hb ⊢
  nlinarith [hb]
